import Mathlib

/-!
# Verification of the signed request/response pipeline of `AmazonMwsResource`

Shallow embedding of `lib/AmazonMwsResource.js`: the canonical signer
(`_request`, GET branch), the request routing (`makeRequest`), the response
decoder (`_responseHandler`), and the timeout/error race (`_timeoutHandler`,
`_errorHandler`), together with theorems settling the specification claims.
-/

namespace AmazonMws

/-! ## JavaScript object model for flat parameter maps

A JS object with string values is modelled as an association list in
property-insertion order (JS objects preserve insertion order for
non-integer string keys). -/

/-- The property names of a JS object, in insertion order (`Object.keys`). -/
def keys (m : List (String × String)) : List String := m.map Prod.fst

/-- JS property assignment `m[k] = v`: if the key is present its value is
updated in place (position preserved); otherwise the pair is appended. -/
def jsSet (m : List (String × String)) (k v : String) : List (String × String) :=
  if k ∈ keys m then m.map (fun p => if p.1 = k then (k, v) else p) else m ++ [(k, v)]

/-- JS property read `m[k]`: `none` models `undefined`. -/
def jsGet (m : List (String × String)) (k : String) : Option String :=
  List.lookup k m

/-! ## URL encoding (`qs.stringify`)

`qs.stringify` percent-encodes keys and values with the
`encodeURIComponent` character set (alphanumerics and `-_.~!*'()`
unescaped, everything else as uppercase `%XX` per UTF-8 byte) and joins
the pairs of the object, in property order, as `k=v` separated by `&`. -/

/-- Uppercase hexadecimal digits. -/
def hexDigits : List Char :=
  ['0', '1', '2', '3', '4', '5', '6', '7', '8', '9', 'A', 'B', 'C', 'D', 'E', 'F']

/-- Two-digit uppercase hex rendering of a byte. -/
def toHex2 (n : Nat) : String :=
  String.mk [hexDigits.getD (n / 16 % 16) '0', hexDigits.getD (n % 16) '0']

/-- The UTF-8 bytes of a character. -/
def utf8Bytes (c : Char) : List Nat :=
  let n := c.toNat
  if n < 0x80 then [n]
  else if n < 0x800 then
    [0xC0 + n / 64, 0x80 + n % 64]
  else if n < 0x10000 then
    [0xE0 + n / 4096, 0x80 + n / 64 % 64, 0x80 + n % 64]
  else
    [0xF0 + n / 262144, 0x80 + n / 4096 % 64, 0x80 + n / 64 % 64, 0x80 + n % 64]

/-- Characters `encodeURIComponent` leaves unescaped. -/
def isUriSafe (c : Char) : Bool :=
  c.isAlphanum || c = '-' || c = '_' || c = '.' || c = '~' ||
    c = '!' || c = '*' || c = Char.ofNat 39 || c = '(' || c = ')'

/-- Percent-encode one character. -/
def pctEncodeChar (c : Char) : String :=
  if isUriSafe c then String.mk [c]
  else String.join ((utf8Bytes c).map (fun b => "%" ++ toHex2 b))

/-- Percent-encode a string (`encodeURIComponent`). -/
def pctEncode (s : String) : String :=
  String.join (s.data.map pctEncodeChar)

/-- `qs.stringify`: serialize the parameter map, in property order, as
`k=v` pairs joined by `&`, with keys and values percent-encoded. -/
def qsStringify (m : List (String × String)) : String :=
  String.intercalate "&" (m.map (fun p => pctEncode p.1 ++ "=" ++ pctEncode p.2))

/-- Modelled from the spec: `utils.stringifyRequestData` lives in
`lib/utils.js`, which is not part of the sources; per the spec, request
bodies/query strings are `application/x-www-form-urlencoded`-style
`key=value` pairs, i.e. the same serialization as `qs.stringify`. -/
def stringifyRequestData (m : List (String × String)) : String :=
  qsStringify m

/-! ## String order

JavaScript's default `Array.prototype.sort()` compares strings
lexicographically; this is embedded as an executable lexicographic
comparison on the character sequences. -/

/-- Lexicographic strict comparison of character lists. -/
def charListLtb : List Char → List Char → Bool
  | [], [] => false
  | [], _ :: _ => true
  | _ :: _, [] => false
  | a :: as, b :: bs => if a < b then true else if b < a then false else charListLtb as bs

/-- Lexicographic strict comparison of strings. -/
def strLtb (a b : String) : Bool := charListLtb a.data b.data

/-- The non-strict string order used for sorting: `a ≤ b` iff `¬ b < a`. -/
def strLe (a b : String) : Prop := strLtb b a = false

/-- The strict string order. -/
def strLt (a b : String) : Prop := strLtb a b = true

instance : DecidableRel strLe := fun _ _ => inferInstanceAs (Decidable (_ = false))

instance : DecidableRel strLt := fun _ _ => inferInstanceAs (Decidable (_ = true))

theorem charListLtb_asymm : ∀ {a b : List Char},
    charListLtb a b = true → charListLtb b a = false
  | [], [], h => by simp [charListLtb] at h
  | [], _ :: _, _ => by simp [charListLtb]
  | _ :: _, [], h => by simp [charListLtb] at h
  | a :: as, b :: bs, h => by
      simp only [charListLtb] at h ⊢
      rcases lt_trichotomy a b with hab | hab | hab
      · simp [hab, not_lt_of_lt hab]
      · subst hab
        simp only [lt_irrefl, if_neg, if_false] at h ⊢
        exact charListLtb_asymm h
      · simp [hab, not_lt_of_lt hab] at h

theorem charListLtb_trans : ∀ {a b c : List Char},
    charListLtb a b = true → charListLtb b c = true → charListLtb a c = true
  | [], b, [], h₁, h₂ => by cases b <;> simp [charListLtb] at h₁ h₂
  | [], _, _ :: _, _, _ => by simp [charListLtb]
  | _ :: _, [], _, h, _ => by simp [charListLtb] at h
  | _ :: _, _ :: _, [], _, h => by simp [charListLtb] at h
  | a :: as, b :: bs, c :: cs, h₁, h₂ => by
      simp only [charListLtb] at h₁ h₂ ⊢
      rcases lt_trichotomy a b with hab | hab | hab
      · rcases lt_trichotomy b c with hbc | hbc | hbc
        · simp [lt_trans hab hbc]
        · subst hbc; simp [hab]
        · simp [hbc, not_lt_of_lt hbc] at h₂
      · subst hab
        simp only [lt_irrefl, if_neg, if_false] at h₁
        rcases lt_trichotomy a c with hac | hac | hac
        · simp [hac]
        · subst hac
          simp only [lt_irrefl, if_neg, if_false] at h₂ ⊢
          exact charListLtb_trans h₁ h₂
        · simp [hac, not_lt_of_lt hac] at h₂
      · simp [hab, not_lt_of_lt hab] at h₁

theorem charListLtb_conn : ∀ {a b : List Char},
    charListLtb a b = false → charListLtb b a = false → a = b
  | [], [], _, _ => rfl
  | [], _ :: _, h, _ => by simp [charListLtb] at h
  | _ :: _, [], _, h => by simp [charListLtb] at h
  | a :: as, b :: bs, h₁, h₂ => by
      simp only [charListLtb] at h₁ h₂
      rcases lt_trichotomy a b with hab | hab | hab
      · simp [hab] at h₁
      · subst hab
        simp only [lt_irrefl, if_neg, if_false] at h₁ h₂
        rw [charListLtb_conn h₁ h₂]
      · simp [hab] at h₂

theorem strLtb_asymm {a b : String} (h : strLtb a b = true) : strLtb b a = false :=
  charListLtb_asymm h

theorem strLtb_trans {a b c : String} (h₁ : strLtb a b = true) (h₂ : strLtb b c = true) :
    strLtb a c = true :=
  charListLtb_trans h₁ h₂

theorem strLtb_conn {a b : String} (h₁ : strLtb a b = false) (h₂ : strLtb b a = false) :
    a = b := by
  cases a; cases b
  exact congrArg String.mk (charListLtb_conn h₁ h₂)

instance : IsTotal String strLe := by
  constructor
  intro a b
  cases h : strLtb b a
  · exact Or.inl h
  · exact Or.inr (strLtb_asymm h)

instance : IsTrans String strLe := by
  constructor
  intro a b c hab hbc
  cases hca : strLtb c a
  · exact hca
  · exfalso
    cases hab' : strLtb a b
    · have hab'' : a = b := strLtb_conn hab' hab
      subst hab''
      have hbc' : strLtb c a = false := hbc
      rw [hca] at hbc'
      exact Bool.false_ne_true hbc'.symm
    · have : strLtb c b = true := strLtb_trans hca hab'
      rw [hbc] at this
      exact Bool.false_ne_true this

instance : IsAntisymm String strLe := by
  constructor
  intro a b hab hba
  exact strLtb_conn hba hab

/-! ## The canonical signer: the `method === 'GET'` branch of `_request` -/

/-- The five auth-parameter assignments of `_request` (lines 180-184), in
source order: `requestData.AWSAccessKeyId = key; requestData.Timestamp =
now; requestData.SignatureVersion = '2'; requestData.SignatureMethod =
'HmacSHA256'; requestData.Version = '2011-07-01';`. `now` stands for the
serialized `new Date()`. -/
def injectAuth (key now : String) (data : List (String × String)) : List (String × String) :=
  jsSet (jsSet (jsSet (jsSet (jsSet data
    "AWSAccessKeyId" key)
    "Timestamp" now)
    "SignatureVersion" "2")
    "SignatureMethod" "HmacSHA256")
    "Version" "2011-07-01"

/-- The key list of the object, sorted (`_.keys(requestData).sort()`). -/
def sortedKeys (m : List (String × String)) : List String :=
  List.insertionSort strLe (keys m)

/-- The sorted rebuild of `_request` (lines 185-188):
`_.reduce(_.keys(requestData).sort(), function (m, k) { m[k] = requestData[k]; return m; }, {})`.
Every `k` drawn from `keys m` is present in `m`, so the `getD` default is
never used. -/
def sortedRebuild (m : List (String × String)) : List (String × String) :=
  (sortedKeys m).foldl (fun acc k => jsSet acc k ((jsGet m k).getD "")) []

/-- `stringToSign` of `_request` (line 189):
`['GET', host, path, qs.stringify(sorted)].join("\n")`. -/
def stringToSign (host path : String) (m : List (String × String)) : String :=
  String.intercalate "\n" ["GET", host, path, qsStringify (sortedRebuild m)]

/-- The GET branch of `_request` (lines 179-191): inject the auth
parameters, compute the signature over the sorted rebuild, and assign it
to `requestData.Signature`. `hmac secret msg` stands for
`crypto.createHmac("sha256", secret).update(msg, 'utf8').digest("base64")`,
which is external to the sources. -/
def signedData (hmac : String → String → String) (key secret host path now : String)
    (data : List (String × String)) : List (String × String) :=
  let requestData := injectAuth key now data
  jsSet requestData "Signature" (hmac secret (stringToSign host path requestData))

/-- The signing phase of `_request`: the GET branch runs only when
`method === 'GET'`; for any other method `requestData` is left exactly as
the caller passed it. -/
def signPhase (hmac : String → String → String) (method key secret host path now : String)
    (data : List (String × String)) : List (String × String) :=
  if method = "GET" then signedData hmac key secret host path now data else data

/-- A stand-in HMAC function for concrete evaluations: the real
`crypto.createHmac("sha256", ...)` is an external library primitive, so the
signer is parameterized over it and instantiated with this stub in
witnesses and counterexamples. -/
def hmacStub (secret msg : String) : String :=
  "hmac-sha256-base64(" ++ secret ++ "," ++ msg ++ ")"

/-- Key-wise non-strict order on parameter pairs. -/
def keyLe (p q : String × String) : Prop := strLe p.1 q.1

/-- Key-wise strict order on parameter pairs. -/
def keyLt (p q : String × String) : Prop := strLt p.1 q.1

instance : DecidableRel keyLe := fun p q => inferInstanceAs (Decidable (strLe p.1 q.1))

instance : DecidableRel keyLt := fun p q => inferInstanceAs (Decidable (strLt p.1 q.1))

instance : IsTotal (String × String) keyLe :=
  ⟨fun p q => IsTotal.total (r := strLe) p.1 q.1⟩

instance : IsTrans (String × String) keyLe :=
  ⟨fun _ _ _ h₁ h₂ => IsTrans.trans (r := strLe) _ _ _ h₁ h₂⟩

instance : IsAntisymm (String × String) keyLt :=
  ⟨fun _ _ h₁ h₂ => absurd h₂ (by rw [keyLt, strLt, strLtb_asymm h₁]; exact Bool.false_ne_true)⟩

/-- Formulation following the specification's words: the parameter pairs
themselves sorted by key in lexicographic order, to be compared with the
source's rebuild-by-sorted-keys (`sortedRebuild`). -/
def specSortedByKey (m : List (String × String)) : List (String × String) :=
  List.insertionSort keyLe m

/-! ## `_request` around the signing phase, and `makeRequest`

`var requestData = data;` aliases the caller's object, so the GET-branch
assignments mutate the caller's `data` in place; afterwards line 197 runs
`requestData = utils.stringifyRequestData(data || {});`. A `GET` call with
`data = null` reaches `requestData.AWSAccessKeyId = ...` first and throws a
`TypeError` (property assignment on `null`). -/

/-- A thrown JavaScript exception. -/
inductive JsException where
  | typeError (msg : String)
deriving DecidableEq

/-- The preparation phase of `_request` (lines 176-198, with the default
`requestDataProcessor = null`): sign when the method is GET, then
serialize. Returns the contents of the caller's `data` object after the
phase together with the serialized `requestData` string, or the exception
that escapes. `data = none` models a `null`/`undefined` argument. -/
def requestPrepare (hmac : String → String → String)
    (method key secret host path now : String)
    (data : Option (List (String × String))) :
    Except JsException (List (String × String) × String) :=
  if method = "GET" then
    match data with
    | none =>
        .error (.typeError "Cannot set properties of null (setting AWSAccessKeyId)")
    | some d =>
        let signed := signedData hmac key secret host path now d
        .ok (signed, stringifyRequestData signed)
  else
    .ok (data.getD [], stringifyRequestData (data.getD []))

/-- The caller's `data` object after the signing phase of `_request`:
`requestData` aliases `data`, so the GET branch's property assignments are
visible through the caller's reference. -/
def callerDataAfterSigning (hmac : String → String → String)
    (method key secret host path now : String)
    (data : List (String × String)) : List (String × String) :=
  signPhase hmac method key secret host path now data

/-- The wire-level request assembled by `makeRequest`: the path sent to the
transport and the body written on the socket. -/
structure WireRequest where
  path : String
  body : String
deriving DecidableEq

/-- `makeRequest` (lines 220-245): for GET the serialized `requestData` is
appended to the path as a query string (lines 227-229); the socket-connect
handler writes `requestData` as the body unconditionally, for every method
(lines 239-244). -/
def makeRequest (method path requestData : String) : WireRequest :=
  { path := if method = "GET" then path ++ "?" ++ requestData else path
    body := requestData }

/-! ## The response decoder (`_responseHandler`, lines 118-156)

The accumulated body is run through `xml2json.toJson` and `JSON.parse`
(both external libraries, modelled as function parameters that either
return a value or throw). The mutable `response` variable is reassigned at
each stage, and the `catch` block reports whatever it holds at the point of
failure. After the `try`, `Object.defineProperty(response, 'lastResponse',
...)` throws if the parsed value is a primitive; that statement is outside
the `try`, so such an exception escapes the handler. -/

/-- A JavaScript (JSON-like) value. -/
inductive Js where
  | null
  | bool (b : Bool)
  | num (n : Int)
  | str (s : String)
  | obj (fields : List (String × Js))
  | arr (elems : List Js)

/-- JavaScript truthiness of a value (`undefined` is handled separately as
`Option.none` at use sites). -/
def truthy : Js → Bool
  | .null => false
  | .bool b => b
  | .num n => n ≠ 0
  | .str s => s ≠ ""
  | .obj _ => true
  | .arr _ => true

/-- Property access `v.k` on a non-`null` value: `none` models `undefined`.
JSON objects produced by `JSON.parse` keep the last of duplicate keys;
lookup from the front is used, with key-uniqueness assumed where needed. -/
def jsField : Js → String → Option Js
  | .obj fields, k => fields.lookup k
  | _, _ => none

/-- `Object.defineProperty` succeeds on objects and arrays and throws a
`TypeError` on primitives. -/
def canDefineProperty : Js → Bool
  | .obj _ => true
  | .arr _ => true
  | _ => false

/-- The terminal outcome of the `end` handler of `_responseHandler`. -/
inductive DecodeOutcome where
  | upstreamError (e : Js)
  | apiError (response : Js) (exception : String)
  | success (body : Js)
  | crash (exception : String)

/-- The decode outcome is a crash (an exception escaping the handler). -/
def DecodeOutcome.isCrash : DecodeOutcome → Bool
  | .crash _ => true
  | _ => false

/-- The `end` handler of `_responseHandler` (lines 127-153).
`toJson` models `xml2json.toJson` and `jsonParse` models `JSON.parse`;
`.error` models a thrown exception. The `response` variable is reassigned
by each stage, so the `catch` block's `AmazonMwsAPIError` carries the
stage output current at the failure (raw strings are embedded as `Js.str`).
Reading `.ErrorResponse` on a parsed `null` throws inside the `try`;
`Object.defineProperty` on a parsed primitive throws outside it. -/
def responseEnd (toJson : String → Except String String)
    (jsonParse : String → Except String Js) (raw : String) : DecodeOutcome :=
  match toJson raw with
  | .error e => .apiError (.str raw) e
  | .ok converted =>
    match jsonParse converted with
    | .error e => .apiError (.str converted) e
    | .ok parsed =>
      match parsed with
      | .null =>
          .apiError .null "TypeError: Cannot read properties of null (reading ErrorResponse)"
      | v =>
        match jsField v "ErrorResponse" with
        | some er =>
            if truthy er then .upstreamError er else finishDecode v
        | none => finishDecode v
where
  /-- Lines 147-153: attach `lastResponse` and invoke the success callback. -/
  finishDecode (v : Js) : DecodeOutcome :=
    if canDefineProperty v then .success v
    else .crash "TypeError: Object.defineProperty called on non-object"

/-- Stage stub for concrete decoder evaluations: an XML-to-JSON conversion
that returns its input unchanged. -/
def toJsonStub (s : String) : Except String String := .ok s

/-- Stage stub: an XML-to-JSON conversion that throws (malformed XML). -/
def toJsonThrow (s : String) : Except String String :=
  .error ("Error: Unexpected end: " ++ s)

/-- Stage stub: an XML-to-JSON conversion that returns a non-JSON string. -/
def toJsonGarbage (_ : String) : Except String String := .ok "not-json"

/-- Stage stub: a JSON parse that throws (invalid JSON text). -/
def jsonParseThrow (_ : String) : Except String Js :=
  .error "SyntaxError: Unexpected token o in JSON"

/-- Stage stub: a JSON parse producing a structured object whose
`ErrorResponse` field holds the empty string — a falsy value. -/
def jsonParseFalsyER (_ : String) : Except String Js :=
  .ok (.obj [("ErrorResponse", .str "")])

/-- Stage stub: a JSON parse producing a structured object whose
`ErrorResponse` field holds a non-empty (truthy) error body. -/
def jsonParseTruthyER (_ : String) : Except String Js :=
  .ok (.obj [("ErrorResponse", .obj [("Error", .str "AccessDenied")])])

/-! ## The request lifecycle (`_timeoutHandler`, `_errorHandler`, handlers
wiring in `makeRequest`, lines 98-116, 158-174, 235-237)

One in-flight request is modelled as a state carrying the `_isAborted`
flag and the list of callback invocations so far; the three registered
handlers are the transitions. -/

/-- One terminal callback invocation. -/
inductive Callback where
  | timeoutConnectionError (timeoutMs : Nat)
  | connectionError (cause : String)
  | responseDelivered (outcome : DecodeOutcome)

/-- The per-request state: the `req._isAborted` flag and the callback
invocations performed so far, in order. -/
structure ReqState where
  isAborted : Bool
  fired : List Callback

/-- The initial state of a request: flag clear, no callback fired. -/
def initialState : ReqState := ⟨false, []⟩

/-- An event delivered to one of the three registered handlers. A
`responseEnd` event carries the decode outcome of the accumulated body. -/
inductive Event where
  | timeoutFired (timeoutMs : Nat)
  | errorEvent (cause : String)
  | responseEnd (outcome : DecodeOutcome)

/-- Processing one event, as the source handlers do.
`_timeoutHandler` (lines 98-116) sets `req._isAborted = true`, calls
`req.abort()`, and then invokes the callback with the timeout
`AmazonMwsConnectionError`. `_errorHandler` (lines 158-174) returns
without calling back when `req._isAborted` is set, and otherwise invokes
the callback with an `AmazonMwsConnectionError` wrapping the cause. The
response `end` handler invokes the callback with the decode outcome
unless the decode itself threw out of the handler. -/
def step (s : ReqState) : Event → ReqState
  | .timeoutFired t =>
      { isAborted := true, fired := s.fired ++ [.timeoutConnectionError t] }
  | .errorEvent c =>
      if s.isAborted then s
      else { s with fired := s.fired ++ [.connectionError c] }
  | .responseEnd o =>
      if o.isCrash then s
      else { s with fired := s.fired ++ [.responseDelivered o] }

/-- Processing a sequence of events from the initial state. -/
def processEvents (events : List Event) : ReqState :=
  events.foldl step initialState

/-- The event sequences a single request can terminate with, per the three
terminal paths: a successful response (whose decode completes), a
transport error, or a timeout — whose `req.abort()` is the source of any
number of subsequent transport-error events. -/
inductive TerminalTrace : List Event → Prop
  | successfulResponse (o : DecodeOutcome) (h : o.isCrash = false) :
      TerminalTrace [.responseEnd o]
  | transportFailure (c : String) :
      TerminalTrace [.errorEvent c]
  | timeoutThenAbortErrors (t : Nat) (causes : List String) :
      TerminalTrace (.timeoutFired t :: causes.map .errorEvent)

/-! ## Association-list lemmas for the JS object model -/

theorem keys_append (m₁ m₂ : List (String × String)) :
    keys (m₁ ++ m₂) = keys m₁ ++ keys m₂ := by
  simp [keys]

theorem keys_jsSet (m : List (String × String)) (k v : String) :
    keys (jsSet m k v) = if k ∈ keys m then keys m else keys m ++ [k] := by
  unfold jsSet
  split
  · simp only [if_pos ‹k ∈ keys m›, keys, List.map_map]
    apply List.map_congr_left
    intro p _
    by_cases hp : p.1 = k
    · simp [Function.comp, hp]
    · simp [Function.comp, hp]
  · simp [if_neg ‹¬ k ∈ keys m›, keys]

theorem nodup_keys_jsSet {m : List (String × String)} (k v : String)
    (h : (keys m).Nodup) : (keys (jsSet m k v)).Nodup := by
  rw [keys_jsSet]
  split
  · exact h
  · have : (keys m ++ [k]).Perm (k :: keys m) := List.perm_append_singleton k (keys m)
    refine this.nodup_iff.mpr ?_
    exact List.Nodup.cons ‹¬ k ∈ keys m› h

theorem jsGet_nil (k : String) : jsGet [] k = none := rfl

theorem jsGet_cons (k' v' k : String) (m : List (String × String)) :
    jsGet ((k', v') :: m) k = if k = k' then some v' else jsGet m k := by
  by_cases h : k = k'
  · have hb : (k == k') = true := beq_iff_eq.mpr h
    simp [jsGet, List.lookup, hb, h]
  · have hb : (k == k') = false := by
      rw [beq_eq_false_iff_ne]
      exact h
    simp [jsGet, List.lookup, hb, h]

theorem keys_cons (k' v' : String) (m : List (String × String)) :
    keys ((k', v') :: m) = k' :: keys m := rfl

theorem jsGet_eq_none_iff {m : List (String × String)} {k : String} :
    jsGet m k = none ↔ k ∉ keys m := by
  induction m with
  | nil => simp [jsGet_nil, keys]
  | cons p ps ih =>
      obtain ⟨pk, pv⟩ := p
      rw [jsGet_cons, keys_cons]
      by_cases h : k = pk
      · simp [h]
      · rw [if_neg h, ih]
        simp [h]

theorem mem_of_jsGet_eq_some {m : List (String × String)} {k v : String}
    (h : jsGet m k = some v) : (k, v) ∈ m := by
  induction m with
  | nil => simp [jsGet_nil] at h
  | cons p ps ih =>
      obtain ⟨pk, pv⟩ := p
      rw [jsGet_cons] at h
      by_cases hk : k = pk
      · rw [if_pos hk] at h
        injection h with hv
        rw [List.mem_cons]
        left
        rw [hk, hv]
      · rw [if_neg hk] at h
        exact List.mem_cons_of_mem _ (ih h)

theorem jsGet_eq_some_of_mem {m : List (String × String)} {k v : String}
    (hnd : (keys m).Nodup) (h : (k, v) ∈ m) : jsGet m k = some v := by
  induction m with
  | nil => simp at h
  | cons p ps ih =>
      obtain ⟨pk, pv⟩ := p
      rw [jsGet_cons]
      rw [keys_cons, List.nodup_cons] at hnd
      rcases List.mem_cons.mp h with h₁ | h₁
      · injection h₁ with h₂ h₃
        simp [h₂, h₃]
      · have hk : k ≠ pk := by
          intro hk
          apply hnd.1
          subst hk
          exact List.mem_map.mpr ⟨(k, v), h₁, rfl⟩
        rw [if_neg hk]
        exact ih hnd.2 h₁

theorem jsGet_congr_perm {m₁ m₂ : List (String × String)} (hp : m₁.Perm m₂)
    (hnd : (keys m₁).Nodup) (k : String) : jsGet m₁ k = jsGet m₂ k := by
  have hnd₂ : (keys m₂).Nodup := ((hp.map Prod.fst).nodup_iff).mp hnd
  cases h : jsGet m₁ k with
  | none =>
      symm
      rw [jsGet_eq_none_iff] at h ⊢
      intro hk
      exact h (((hp.map Prod.fst).mem_iff).mpr hk)
  | some v =>
      symm
      exact jsGet_eq_some_of_mem hnd₂ (hp.mem_iff.mp (mem_of_jsGet_eq_some h))

theorem jsSet_of_not_mem {m : List (String × String)} {k : String} (v : String)
    (h : k ∉ keys m) : jsSet m k v = m ++ [(k, v)] := by
  unfold jsSet
  exact if_neg h

theorem jsGet_map_replace_self {m : List (String × String)} {k : String} (v : String)
    (hmem : k ∈ keys m) :
    jsGet (m.map (fun p => if p.1 = k then (k, v) else p)) k = some v := by
  induction m with
  | nil => simp [keys] at hmem
  | cons p ps ih =>
      obtain ⟨pk, pv⟩ := p
      by_cases hp : pk = k
      · simp only [List.map_cons, if_pos hp, jsGet_cons]
        simp
      · simp only [List.map_cons, if_neg hp, jsGet_cons]
        rw [if_neg (fun h => hp h.symm)]
        apply ih
        rw [keys_cons, List.mem_cons] at hmem
        rcases hmem with h₁ | h₁
        · exact absurd h₁.symm hp
        · exact h₁

theorem jsGet_map_replace_ne {m : List (String × String)} {k k' : String} (v : String)
    (h : k' ≠ k) :
    jsGet (m.map (fun p => if p.1 = k then (k, v) else p)) k' = jsGet m k' := by
  induction m with
  | nil => simp
  | cons p ps ih =>
      obtain ⟨pk, pv⟩ := p
      by_cases hp : pk = k
      · simp only [List.map_cons, if_pos hp, jsGet_cons]
        rw [if_neg h, if_neg (by rw [hp]; exact h)]
        exact ih
      · simp only [List.map_cons, if_neg hp, jsGet_cons]
        by_cases hk : k' = pk
        · simp [hk]
        · rw [if_neg hk, if_neg hk]
          exact ih

theorem jsGet_append_single_self {m : List (String × String)} {k : String} (v : String)
    (hmem : k ∉ keys m) : jsGet (m ++ [(k, v)]) k = some v := by
  induction m with
  | nil => simp [jsGet_cons]
  | cons p ps ih =>
      obtain ⟨pk, pv⟩ := p
      rw [keys_cons, List.mem_cons] at hmem
      push_neg at hmem
      rw [List.cons_append, jsGet_cons, if_neg hmem.1]
      exact ih hmem.2

theorem jsGet_append_single_ne {m : List (String × String)} {k k' : String} (v : String)
    (h : k' ≠ k) : jsGet (m ++ [(k, v)]) k' = jsGet m k' := by
  induction m with
  | nil => simp [jsGet_cons, if_neg h, jsGet_nil]
  | cons p ps ih =>
      obtain ⟨pk, pv⟩ := p
      rw [List.cons_append, jsGet_cons, jsGet_cons]
      by_cases hk : k' = pk
      · simp [hk]
      · rw [if_neg hk, if_neg hk]
        exact ih

theorem jsGet_jsSet_self (m : List (String × String)) (k v : String) :
    jsGet (jsSet m k v) k = some v := by
  unfold jsSet
  split
  · exact jsGet_map_replace_self v ‹k ∈ keys m›
  · exact jsGet_append_single_self v ‹k ∉ keys m›

theorem jsGet_jsSet_ne (m : List (String × String)) {k k' : String} (v : String)
    (h : k' ≠ k) : jsGet (jsSet m k v) k' = jsGet m k' := by
  unfold jsSet
  split
  · exact jsGet_map_replace_ne v h
  · exact jsGet_append_single_ne v h

theorem jsSet_congr_perm {m₁ m₂ : List (String × String)} (hp : m₁.Perm m₂)
    (k v : String) : (jsSet m₁ k v).Perm (jsSet m₂ k v) := by
  unfold jsSet
  have hmem : (k ∈ keys m₁) = (k ∈ keys m₂) := by
    apply propext
    exact (hp.map Prod.fst).mem_iff
  by_cases h : k ∈ keys m₁
  · rw [if_pos h, if_pos (hmem ▸ h)]
    exact hp.map _
  · rw [if_neg h, if_neg (hmem ▸ h)]
    exact hp.append_right _

/-! ## The sorted rebuild equals the key-sorted pair list -/

theorem foldl_jsSet_fresh (g : String → String) :
    ∀ (ks : List String) (acc : List (String × String)),
      (∀ k ∈ ks, k ∉ keys acc) → ks.Nodup →
      ks.foldl (fun acc k => jsSet acc k (g k)) acc = acc ++ ks.map (fun k => (k, g k))
  | [], acc, _, _ => by simp
  | k₀ :: ks, acc, hfresh, hnd => by
      rw [List.foldl_cons, jsSet_of_not_mem (g k₀) (hfresh k₀ (List.mem_cons_self k₀ ks))]
      rw [foldl_jsSet_fresh g ks (acc ++ [(k₀, g k₀)]) ?_ (List.nodup_cons.mp hnd).2]
      · simp
      · intro k hk
        rw [keys_append]
        intro hmem
        rcases List.mem_append.mp hmem with h₁ | h₁
        · exact hfresh k (List.mem_cons_of_mem _ hk) h₁
        · have : k = k₀ := by simpa [keys] using h₁
          exact (List.nodup_cons.mp hnd).1 (this ▸ hk)

theorem sortedKeys_perm (m : List (String × String)) : (sortedKeys m).Perm (keys m) :=
  List.perm_insertionSort strLe (keys m)

theorem sortedKeys_nodup {m : List (String × String)} (h : (keys m).Nodup) :
    (sortedKeys m).Nodup :=
  (sortedKeys_perm m).nodup_iff.mpr h

theorem sortedRebuild_eq_map {m : List (String × String)} (h : (keys m).Nodup) :
    sortedRebuild m = (sortedKeys m).map (fun k => (k, (jsGet m k).getD "")) := by
  unfold sortedRebuild
  rw [foldl_jsSet_fresh (fun k => (jsGet m k).getD "") (sortedKeys m) []
    (by intro k _ hk; simp [keys] at hk) (sortedKeys_nodup h)]
  simp

theorem map_jsGet_keys {m : List (String × String)} (h : (keys m).Nodup) :
    (keys m).map (fun k => (k, (jsGet m k).getD "")) = m := by
  induction m with
  | nil => rfl
  | cons p ps ih =>
      obtain ⟨pk, pv⟩ := p
      rw [keys_cons, List.nodup_cons] at h
      rw [keys_cons, List.map_cons]
      have hhead : jsGet ((pk, pv) :: ps) pk = some pv := by
        rw [jsGet_cons, if_pos rfl]
      rw [hhead]
      have htail : List.map (fun k => (k, (jsGet ((pk, pv) :: ps) k).getD "")) (keys ps)
          = List.map (fun k => (k, (jsGet ps k).getD "")) (keys ps) := by
        apply List.map_congr_left
        intro k hk
        rw [jsGet_cons, if_neg (fun hkp : k = pk => h.1 (hkp ▸ hk))]
      rw [htail, ih h.2]
      rfl

theorem sortedRebuild_perm {m : List (String × String)} (h : (keys m).Nodup) :
    (sortedRebuild m).Perm m := by
  rw [sortedRebuild_eq_map h]
  have h₁ : ((sortedKeys m).map (fun k => (k, (jsGet m k).getD ""))).Perm
      ((keys m).map (fun k => (k, (jsGet m k).getD ""))) := (sortedKeys_perm m).map _
  rw [map_jsGet_keys h] at h₁
  exact h₁

theorem keys_map_pair (g : String → String) (ks : List String) :
    keys (ks.map (fun k => (k, g k))) = ks := by
  rw [keys, List.map_map]
  have hc : (Prod.fst ∘ fun k : String => ((k, g k) : String × String)) = id := rfl
  rw [hc, List.map_id]

theorem strLe_ne_strLt {a b : String} (h₁ : strLe a b) (h₂ : a ≠ b) : strLt a b := by
  cases h : strLtb a b
  · exact absurd (strLtb_conn h h₁) h₂
  · exact h

theorem sorted_strict_of_sorted_nodup {l : List (String × String)}
    (hs : List.Sorted keyLe l) (hnd : (keys l).Nodup) : List.Sorted keyLt l := by
  have hnd' : (l.map Prod.fst).Nodup := hnd
  have hpair : List.Pairwise (fun p q : String × String => p.1 ≠ q.1) l :=
    List.pairwise_map.mp hnd'
  exact (hs.and hpair).imp (fun h => strLe_ne_strLt h.1 h.2)

theorem perm_sorted_strict_eq {l₁ l₂ : List (String × String)} (hp : l₁.Perm l₂)
    (h₁ : List.Sorted keyLt l₁) (h₂ : List.Sorted keyLt l₂) : l₁ = l₂ :=
  List.eq_of_perm_of_sorted hp h₁ h₂

theorem sortedRebuild_eq_specSortedByKey {m : List (String × String)}
    (h : (keys m).Nodup) : sortedRebuild m = specSortedByKey m := by
  have hperm : (sortedRebuild m).Perm (specSortedByKey m) :=
    (sortedRebuild_perm h).trans (List.perm_insertionSort keyLe m).symm
  have hkeys₁ : (keys (sortedRebuild m)).Nodup :=
    ((sortedRebuild_perm h).map Prod.fst).nodup_iff.mpr h
  have hkeys₂ : (keys (specSortedByKey m)).Nodup :=
    ((List.perm_insertionSort keyLe m).map Prod.fst).nodup_iff.mpr h
  have hs₁ : List.Sorted keyLe (sortedRebuild m) := by
    rw [sortedRebuild_eq_map h]
    exact List.Pairwise.map _ (fun a b hab => hab) (List.sorted_insertionSort strLe (keys m))
  have hs₂ : List.Sorted keyLe (specSortedByKey m) :=
    List.sorted_insertionSort keyLe m
  exact perm_sorted_strict_eq hperm
    (sorted_strict_of_sorted_nodup hs₁ hkeys₁)
    (sorted_strict_of_sorted_nodup hs₂ hkeys₂)

theorem specSortedByKey_congr_perm {m₁ m₂ : List (String × String)} (hp : m₁.Perm m₂)
    (hnd : (keys m₁).Nodup) : specSortedByKey m₁ = specSortedByKey m₂ := by
  have hp' : (specSortedByKey m₁).Perm (specSortedByKey m₂) :=
    ((List.perm_insertionSort keyLe m₁).trans hp).trans
      (List.perm_insertionSort keyLe m₂).symm
  have hk₁ : (keys (specSortedByKey m₁)).Nodup :=
    ((List.perm_insertionSort keyLe m₁).map Prod.fst).nodup_iff.mpr hnd
  have hk₂ : (keys (specSortedByKey m₂)).Nodup :=
    ((List.perm_insertionSort keyLe m₂).map Prod.fst).nodup_iff.mpr
      ((hp.map Prod.fst).nodup_iff.mp hnd)
  exact perm_sorted_strict_eq hp'
    (sorted_strict_of_sorted_nodup (List.sorted_insertionSort keyLe m₁) hk₁)
    (sorted_strict_of_sorted_nodup (List.sorted_insertionSort keyLe m₂) hk₂)

/-! ## Lookups in the signed parameter map -/

theorem not_mem_keys_jsSet {m : List (String × String)} {k' k : String} (v : String)
    (h₁ : k' ∉ keys m) (h₂ : k' ≠ k) : k' ∉ keys (jsSet m k v) := by
  rw [keys_jsSet]
  split
  · exact h₁
  · intro hmem
    rcases List.mem_append.mp hmem with h₃ | h₃
    · exact h₁ h₃
    · exact h₂ (by simpa using h₃)

theorem nodup_keys_injectAuth {data : List (String × String)} (key now : String)
    (h : (keys data).Nodup) : (keys (injectAuth key now data)).Nodup := by
  unfold injectAuth
  exact nodup_keys_jsSet _ _ (nodup_keys_jsSet _ _ (nodup_keys_jsSet _ _
    (nodup_keys_jsSet _ _ (nodup_keys_jsSet _ _ h))))

theorem not_mem_keys_injectAuth {data : List (String × String)} {k' : String}
    (key now : String) (h : k' ∉ keys data)
    (h₁ : k' ≠ "AWSAccessKeyId") (h₂ : k' ≠ "Timestamp") (h₃ : k' ≠ "SignatureVersion")
    (h₄ : k' ≠ "SignatureMethod") (h₅ : k' ≠ "Version") :
    k' ∉ keys (injectAuth key now data) := by
  unfold injectAuth
  exact not_mem_keys_jsSet _ (not_mem_keys_jsSet _ (not_mem_keys_jsSet _
    (not_mem_keys_jsSet _ (not_mem_keys_jsSet _ h h₁) h₂) h₃) h₄) h₅

theorem injectAuth_congr_perm {d₁ d₂ : List (String × String)} (key now : String)
    (hp : d₁.Perm d₂) : (injectAuth key now d₁).Perm (injectAuth key now d₂) := by
  unfold injectAuth
  exact jsSet_congr_perm (jsSet_congr_perm (jsSet_congr_perm (jsSet_congr_perm
    (jsSet_congr_perm hp _ _) _ _) _ _) _ _) _ _

theorem jsGet_injectAuth_version (key now : String) (data : List (String × String)) :
    jsGet (injectAuth key now data) "Version" = some "2011-07-01" := by
  unfold injectAuth
  exact jsGet_jsSet_self _ _ _

theorem jsGet_injectAuth_sigMethod (key now : String) (data : List (String × String)) :
    jsGet (injectAuth key now data) "SignatureMethod" = some "HmacSHA256" := by
  unfold injectAuth
  rw [jsGet_jsSet_ne _ _ (by decide)]
  exact jsGet_jsSet_self _ _ _

theorem jsGet_injectAuth_sigVersion (key now : String) (data : List (String × String)) :
    jsGet (injectAuth key now data) "SignatureVersion" = some "2" := by
  unfold injectAuth
  rw [jsGet_jsSet_ne _ _ (by decide), jsGet_jsSet_ne _ _ (by decide)]
  exact jsGet_jsSet_self _ _ _

theorem jsGet_injectAuth_timestamp (key now : String) (data : List (String × String)) :
    jsGet (injectAuth key now data) "Timestamp" = some now := by
  unfold injectAuth
  rw [jsGet_jsSet_ne _ _ (by decide), jsGet_jsSet_ne _ _ (by decide),
    jsGet_jsSet_ne _ _ (by decide)]
  exact jsGet_jsSet_self _ _ _

theorem jsGet_injectAuth_accessKey (key now : String) (data : List (String × String)) :
    jsGet (injectAuth key now data) "AWSAccessKeyId" = some key := by
  unfold injectAuth
  rw [jsGet_jsSet_ne _ _ (by decide), jsGet_jsSet_ne _ _ (by decide),
    jsGet_jsSet_ne _ _ (by decide), jsGet_jsSet_ne _ _ (by decide)]
  exact jsGet_jsSet_self _ _ _

theorem jsGet_signedData_signature (hmac : String → String → String)
    (key secret host path now : String) (data : List (String × String)) :
    jsGet (signedData hmac key secret host path now data) "Signature"
      = some (hmac secret (stringToSign host path (injectAuth key now data))) := by
  unfold signedData
  exact jsGet_jsSet_self _ _ _

theorem jsGet_signedData_other (hmac : String → String → String)
    (key secret host path now : String) (data : List (String × String)) {k : String}
    (h : k ≠ "Signature") :
    jsGet (signedData hmac key secret host path now data) k
      = jsGet (injectAuth key now data) k := by
  unfold signedData
  exact jsGet_jsSet_ne _ _ h

/-! ## Lifecycle lemmas -/

theorem step_errorEvent_aborted {s : ReqState} (h : s.isAborted = true) (c : String) :
    step s (.errorEvent c) = s := by
  simp [step, h]

theorem foldl_step_errorEvents_aborted {s : ReqState} (h : s.isAborted = true) :
    ∀ causes : List String, (causes.map Event.errorEvent).foldl step s = s
  | [] => rfl
  | c :: cs => by
      rw [List.map_cons, List.foldl_cons, step_errorEvent_aborted h c]
      exact foldl_step_errorEvents_aborted h cs

/-! ## Claim theorems -/

/-- C1: for every single request, the terminal callback is invoked exactly
once across the three terminal paths (timeout, transport error, successful
response); the timeout handler sets the aborted flag before aborting the
transport, so transport-error events arriving after the flag is set never
produce a second callback, and when a timeout races a transport error the
one delivered error is the ConnectionError attributing the timeout. -/
theorem claim1_exactly_once_callback (t : List Event) (h : TerminalTrace t) :
    (processEvents t).fired.length = 1 ∧
      (∀ ms, Event.timeoutFired ms ∈ t →
        (processEvents t).fired = [Callback.timeoutConnectionError ms]) := by
  cases h with
  | successfulResponse o ho =>
      constructor
      · simp [processEvents, initialState, step, ho]
      · intro ms hms
        simp at hms
  | transportFailure c =>
      constructor
      · simp [processEvents, initialState, step]
      · intro ms hms
        simp at hms
  | timeoutThenAbortErrors ms causes =>
      have hrun : processEvents (.timeoutFired ms :: causes.map .errorEvent)
          = ⟨true, [Callback.timeoutConnectionError ms]⟩ := by
        rw [processEvents, List.foldl_cons]
        exact foldl_step_errorEvents_aborted rfl causes
      constructor
      · rw [hrun]
        rfl
      · intro ms' hms'
        have hmseq : ms' = ms := by
          rcases List.mem_cons.mp hms' with h₁ | h₁
          · injection h₁ with h₂
          · exfalso
            rcases List.mem_map.mp h₁ with ⟨c, _, hc⟩
            exact Event.noConfusion hc
        rw [hmseq, hrun]

/-- Witness for C1 at a concrete race: a 120000 ms timeout fires and the
abort-induced transport error event follows; exactly one callback fires,
the timeout ConnectionError. -/
theorem claim1_exactly_once_callback_witness :
    (processEvents [Event.timeoutFired 120000, Event.errorEvent "ECONNRESET"]).fired
      = [Callback.timeoutConnectionError 120000] :=
  (claim1_exactly_once_callback _
    (TerminalTrace.timeoutThenAbortErrors 120000 ["ECONNRESET"])).2 120000
    (List.mem_cons_self _ _)

/-- C2: signing is applied if and only if the method is GET: for every GET
request the signer injects `AWSAccessKeyId`, `Timestamp`,
`SignatureVersion = "2"`, `SignatureMethod = "HmacSHA256"`, the fixed
`Version = "2011-07-01"`, and a `Signature` into the parameter map; for any
non-GET method the parameter map is left exactly as passed, so none of
these fields are injected. -/
theorem claim2_get_only_signing (hmac : String → String → String)
    (method key secret host path now : String) (data : List (String × String)) :
    (method ≠ "GET" → signPhase hmac method key secret host path now data = data) ∧
    (method = "GET" →
      jsGet (signPhase hmac method key secret host path now data) "AWSAccessKeyId"
          = some key ∧
      jsGet (signPhase hmac method key secret host path now data) "Timestamp"
          = some now ∧
      jsGet (signPhase hmac method key secret host path now data) "SignatureVersion"
          = some "2" ∧
      jsGet (signPhase hmac method key secret host path now data) "SignatureMethod"
          = some "HmacSHA256" ∧
      jsGet (signPhase hmac method key secret host path now data) "Version"
          = some "2011-07-01" ∧
      jsGet (signPhase hmac method key secret host path now data) "Signature"
          = some (hmac secret (stringToSign host path (injectAuth key now data)))) := by
  constructor
  · intro h
    rw [signPhase, if_neg h]
  · intro h
    subst h
    rw [signPhase, if_pos rfl]
    refine ⟨?_, ?_, ?_, ?_, ?_, ?_⟩
    · rw [jsGet_signedData_other hmac key secret host path now data (by decide)]
      exact jsGet_injectAuth_accessKey key now data
    · rw [jsGet_signedData_other hmac key secret host path now data (by decide)]
      exact jsGet_injectAuth_timestamp key now data
    · rw [jsGet_signedData_other hmac key secret host path now data (by decide)]
      exact jsGet_injectAuth_sigVersion key now data
    · rw [jsGet_signedData_other hmac key secret host path now data (by decide)]
      exact jsGet_injectAuth_sigMethod key now data
    · rw [jsGet_signedData_other hmac key secret host path now data (by decide)]
      exact jsGet_injectAuth_version key now data
    · exact jsGet_signedData_signature hmac key secret host path now data

/-- Witness for C2: a POST request with the same data gets no fields
injected (the map is returned untouched), while the GET request has the
access key injected. -/
theorem claim2_get_only_signing_witness :
    signPhase hmacStub "POST" "AKID" "SECRET" "mws.amazonservices.com"
        "/Orders/2011-07-01" "2016-01-01T00:00:00.000Z" [("Action", "ListOrders")]
      = [("Action", "ListOrders")] ∧
    jsGet (signPhase hmacStub "GET" "AKID" "SECRET" "mws.amazonservices.com"
        "/Orders/2011-07-01" "2016-01-01T00:00:00.000Z" [("Action", "ListOrders")])
        "AWSAccessKeyId" = some "AKID" :=
  ⟨(claim2_get_only_signing hmacStub "POST" "AKID" "SECRET" "mws.amazonservices.com"
      "/Orders/2011-07-01" "2016-01-01T00:00:00.000Z" [("Action", "ListOrders")]).1
      (by decide),
   ((claim2_get_only_signing hmacStub "GET" "AKID" "SECRET" "mws.amazonservices.com"
      "/Orders/2011-07-01" "2016-01-01T00:00:00.000Z" [("Action", "ListOrders")]).2
      rfl).1⟩

theorem signedData_eq (hmac : String → String → String)
    (key secret host path now : String) (data : List (String × String)) :
    signedData hmac key secret host path now data
      = jsSet (injectAuth key now data) "Signature"
          (hmac secret (stringToSign host path (injectAuth key now data))) := rfl

theorem filter_signature_append {m : List (String × String)} (s : String)
    (h : "Signature" ∉ keys m) :
    (m ++ [("Signature", s)]).filter (fun p => p.1 != "Signature") = m := by
  rw [List.filter_append]
  have h₁ : List.filter (fun p : String × String => p.1 != "Signature")
      [("Signature", s)] = [] := by
    simp [List.filter]
  rw [h₁, List.append_nil]
  apply List.filter_eq_self.mpr
  intro p hp
  apply bne_iff_ne.mpr
  intro hps
  exact h (hps ▸ List.mem_map.mpr ⟨p, hp, rfl⟩)

/-- C3: for every GET request the computed `Signature` equals
`base64(HMAC-SHA256(secret, stringToSign))` — here `hmac` stands for that
external primitive — where `stringToSign` is the newline-joined
concatenation of the method (`GET`), the host, the path, and the
URL-encoded serialization of all parameters of the signed map with keys in
lexicographic order, excluding the `Signature` parameter itself. -/
theorem claim3_string_to_sign (hmac : String → String → String)
    (key secret host path now : String) (data : List (String × String))
    (hnd : (keys data).Nodup) (hsig : "Signature" ∉ keys data) :
    jsGet (signPhase hmac "GET" key secret host path now data) "Signature"
      = some (hmac secret (String.intercalate "\n" ["GET", host, path,
          qsStringify (specSortedByKey
            ((signPhase hmac "GET" key secret host path now data).filter
              (fun p => p.1 != "Signature")))])) := by
  have hnodup : (keys (injectAuth key now data)).Nodup :=
    nodup_keys_injectAuth key now hnd
  have hsig' : "Signature" ∉ keys (injectAuth key now data) :=
    not_mem_keys_injectAuth key now hsig (by decide) (by decide) (by decide)
      (by decide) (by decide)
  rw [signPhase, if_pos rfl]
  have hform : signedData hmac key secret host path now data
      = injectAuth key now data ++ [("Signature",
          hmac secret (stringToSign host path (injectAuth key now data)))] := by
    unfold signedData
    exact jsSet_of_not_mem _ hsig'
  rw [hform, filter_signature_append _ hsig', jsGet_append_single_self _ hsig',
    stringToSign, sortedRebuild_eq_specSortedByKey hnodup]

/-- Witness for C3 at a concrete GET request. -/
theorem claim3_string_to_sign_witness :
    (keys [("Action", "ListOrders")]).Nodup ∧
    "Signature" ∉ keys [("Action", "ListOrders")] ∧
    jsGet (signPhase hmacStub "GET" "AKID" "SECRET" "mws.amazonservices.com"
        "/Orders/2011-07-01" "2016-01-01T00:00:00.000Z" [("Action", "ListOrders")])
        "Signature"
      = some (hmacStub "SECRET" (String.intercalate "\n"
          ["GET", "mws.amazonservices.com", "/Orders/2011-07-01",
            qsStringify (specSortedByKey
              ((signPhase hmacStub "GET" "AKID" "SECRET" "mws.amazonservices.com"
                "/Orders/2011-07-01" "2016-01-01T00:00:00.000Z"
                [("Action", "ListOrders")]).filter
                (fun p => p.1 != "Signature")))])) :=
  ⟨by decide, by decide,
    claim3_string_to_sign hmacStub "AKID" "SECRET" "mws.amazonservices.com"
      "/Orders/2011-07-01" "2016-01-01T00:00:00.000Z" [("Action", "ListOrders")]
      (by decide) (by decide)⟩

/-- C6: for any two input data maps that are permutations of each other
with duplicate-free keys, signing with the same method, credentials, host,
path and timestamp yields identical SignedParameters as a map — the
outputs are permutations of each other and agree on every lookup — and in
particular the same `Signature` value. -/
theorem claim6_key_order_invariance (hmac : String → String → String)
    (key secret host path now : String) (d₁ d₂ : List (String × String))
    (hperm : d₁.Perm d₂) (hnd : (keys d₁).Nodup) :
    (signPhase hmac "GET" key secret host path now d₁).Perm
      (signPhase hmac "GET" key secret host path now d₂) ∧
    ∀ k, jsGet (signPhase hmac "GET" key secret host path now d₁) k
        = jsGet (signPhase hmac "GET" key secret host path now d₂) k := by
  have hip : (injectAuth key now d₁).Perm (injectAuth key now d₂) :=
    injectAuth_congr_perm key now hperm
  have hind : (keys (injectAuth key now d₁)).Nodup :=
    nodup_keys_injectAuth key now hnd
  have hsts : stringToSign host path (injectAuth key now d₁)
      = stringToSign host path (injectAuth key now d₂) := by
    rw [stringToSign, stringToSign, sortedRebuild_eq_specSortedByKey hind,
      sortedRebuild_eq_specSortedByKey ((hip.map Prod.fst).nodup_iff.mp hind),
      specSortedByKey_congr_perm hip hind]
  have hsp : (signPhase hmac "GET" key secret host path now d₁).Perm
      (signPhase hmac "GET" key secret host path now d₂) := by
    rw [signPhase, if_pos rfl, signPhase, if_pos rfl, signedData_eq, signedData_eq, hsts]
    exact jsSet_congr_perm hip _ _
  refine ⟨hsp, fun k => ?_⟩
  apply jsGet_congr_perm hsp
  rw [signPhase, if_pos rfl, signedData_eq]
  exact nodup_keys_jsSet _ _ hind

/-- Witness for C6: two permuted two-key maps sign to the same Signature. -/
theorem claim6_key_order_invariance_witness :
    ([("B", "2"), ("A", "1")] : List (String × String)).Perm [("A", "1"), ("B", "2")] ∧
    jsGet (signPhase hmacStub "GET" "AKID" "SECRET" "mws.amazonservices.com"
        "/" "2016-01-01T00:00:00.000Z" [("B", "2"), ("A", "1")]) "Signature"
      = jsGet (signPhase hmacStub "GET" "AKID" "SECRET" "mws.amazonservices.com"
        "/" "2016-01-01T00:00:00.000Z" [("A", "1"), ("B", "2")]) "Signature" :=
  ⟨by decide,
    (claim6_key_order_invariance hmacStub "AKID" "SECRET" "mws.amazonservices.com"
      "/" "2016-01-01T00:00:00.000Z" [("B", "2"), ("A", "1")] [("A", "1"), ("B", "2")]
      (by decide) (by decide)).2 "Signature"⟩

theorem not_mem_keys_append {m₁ m₂ : List (String × String)} {k : String}
    (h₁ : k ∉ keys m₁) (h₂ : k ∉ keys m₂) : k ∉ keys (m₁ ++ m₂) := by
  rw [keys_append]
  intro hm
  rcases List.mem_append.mp hm with h | h
  · exact h₁ h
  · exact h₂ h

theorem injectAuth_append {data : List (String × String)} (key now : String)
    (h₁ : "AWSAccessKeyId" ∉ keys data) (h₂ : "Timestamp" ∉ keys data)
    (h₃ : "SignatureVersion" ∉ keys data) (h₄ : "SignatureMethod" ∉ keys data)
    (h₅ : "Version" ∉ keys data) :
    injectAuth key now data
      = data ++ [("AWSAccessKeyId", key), ("Timestamp", now),
          ("SignatureVersion", "2"), ("SignatureMethod", "HmacSHA256"),
          ("Version", "2011-07-01")] := by
  unfold injectAuth
  rw [jsSet_of_not_mem key h₁,
    jsSet_of_not_mem now (not_mem_keys_append h₂ (by simp [keys])),
    jsSet_of_not_mem "2"
      (not_mem_keys_append (not_mem_keys_append h₃ (by simp [keys])) (by simp [keys])),
    jsSet_of_not_mem "HmacSHA256"
      (not_mem_keys_append (not_mem_keys_append
        (not_mem_keys_append h₄ (by simp [keys])) (by simp [keys])) (by simp [keys])),
    jsSet_of_not_mem "2011-07-01"
      (not_mem_keys_append (not_mem_keys_append (not_mem_keys_append
        (not_mem_keys_append h₅ (by simp [keys])) (by simp [keys])) (by simp [keys]))
        (by simp [keys]))]
  simp

theorem signPhase_get_append (hmac : String → String → String)
    (key secret host path now : String) {data : List (String × String)}
    (h₁ : "AWSAccessKeyId" ∉ keys data) (h₂ : "Timestamp" ∉ keys data)
    (h₃ : "SignatureVersion" ∉ keys data) (h₄ : "SignatureMethod" ∉ keys data)
    (h₅ : "Version" ∉ keys data) (h₆ : "Signature" ∉ keys data) :
    signPhase hmac "GET" key secret host path now data
      = data ++ [("AWSAccessKeyId", key), ("Timestamp", now),
          ("SignatureVersion", "2"), ("SignatureMethod", "HmacSHA256"),
          ("Version", "2011-07-01"),
          ("Signature", hmac secret (stringToSign host path (injectAuth key now data)))] := by
  rw [signPhase, if_pos rfl, signedData_eq,
    jsSet_of_not_mem _ (not_mem_keys_injectAuth key now h₆ (by decide) (by decide)
      (by decide) (by decide) (by decide)),
    injectAuth_append key now h₁ h₂ h₃ h₄ h₅]
  simp

/-- C4 counterexample: with caller keys `["b", "a"]`, the parameter map
handed to downstream serialization keeps the original insertion order
followed by the injected fields — its key list is not in lexicographic
sorted order. The sorted rebuild of `_request` is a local value used only
for `stringToSign`; `Signature` is assigned onto the original map and
line 197 serializes `data`, not the sorted rebuild. -/
theorem claim4_counterexample :
    keys (signPhase hmacStub "GET" "AKID" "SECRET" "mws.amazonservices.com" "/"
        "2016-01-01T00:00:00.000Z" [("b", "2"), ("a", "1")])
      = ["b", "a", "AWSAccessKeyId", "Timestamp", "SignatureVersion",
          "SignatureMethod", "Version", "Signature"] ∧
    ¬ List.Sorted strLe (keys (signPhase hmacStub "GET" "AKID" "SECRET"
        "mws.amazonservices.com" "/" "2016-01-01T00:00:00.000Z"
        [("b", "2"), ("a", "1")])) := by
  have hkeys : keys (signPhase hmacStub "GET" "AKID" "SECRET" "mws.amazonservices.com"
      "/" "2016-01-01T00:00:00.000Z" [("b", "2"), ("a", "1")])
      = ["b", "a", "AWSAccessKeyId", "Timestamp", "SignatureVersion",
          "SignatureMethod", "Version", "Signature"] := by
    rw [signPhase_get_append hmacStub "AKID" "SECRET" "mws.amazonservices.com" "/"
      "2016-01-01T00:00:00.000Z" (by decide) (by decide) (by decide) (by decide)
      (by decide) (by decide)]
    simp [keys]
  refine ⟨hkeys, ?_⟩
  rw [hkeys]
  intro hsorted
  have h := (List.pairwise_cons.mp hsorted).1 "a" (by simp)
  exact absurd h (by decide)

/-- C4 amended: the sorted rebuild is used only to compute `stringToSign`;
the parameter map handed to downstream serialization keeps the caller's
insertion order followed by the injected fields in injection order, with
`Signature` last (stated for caller maps not already containing the
injected keys). -/
theorem claim4_downstream_key_order (hmac : String → String → String)
    (key secret host path now : String) {data : List (String × String)}
    (h₁ : "AWSAccessKeyId" ∉ keys data) (h₂ : "Timestamp" ∉ keys data)
    (h₃ : "SignatureVersion" ∉ keys data) (h₄ : "SignatureMethod" ∉ keys data)
    (h₅ : "Version" ∉ keys data) (h₆ : "Signature" ∉ keys data) :
    keys (signPhase hmac "GET" key secret host path now data)
      = keys data ++ ["AWSAccessKeyId", "Timestamp", "SignatureVersion",
          "SignatureMethod", "Version", "Signature"] := by
  rw [signPhase_get_append hmac key secret host path now h₁ h₂ h₃ h₄ h₅ h₆,
    keys_append]
  simp [keys]

/-- Witness for the amended C4 at a concrete map. -/
theorem claim4_downstream_key_order_witness :
    keys (signPhase hmacStub "GET" "AKID" "SECRET" "mws.amazonservices.com" "/"
        "2016-01-01T00:00:00.000Z" [("Action", "ListOrders")])
      = ["Action", "AWSAccessKeyId", "Timestamp", "SignatureVersion",
          "SignatureMethod", "Version", "Signature"] :=
  claim4_downstream_key_order hmacStub "AKID" "SECRET" "mws.amazonservices.com" "/"
    "2016-01-01T00:00:00.000Z" (by decide) (by decide) (by decide) (by decide)
    (by decide) (by decide)

/-- C5 counterexample: the socket-connect handler of `makeRequest` writes
`requestData` unconditionally, so a GET request's body does carry the
serialized parameter string. -/
theorem claim5_counterexample :
    (makeRequest "GET" "/Orders/2011-07-01" "Action=ListOrders").body
      = "Action=ListOrders" ∧
    (makeRequest "GET" "/Orders/2011-07-01" "Action=ListOrders").body ≠ "" :=
  ⟨rfl, by decide⟩

/-- C5 amended: for every GET request the serialized signed parameter
string is appended to the path as a query string (`path + '?' + params`)
and for non-GET methods the path is left unchanged; the serialized string
is written as the request body for every method, GET included. -/
theorem claim5_request_routing (method path requestData : String) :
    (method = "GET" →
      (makeRequest method path requestData).path = path ++ "?" ++ requestData) ∧
    (method ≠ "GET" → (makeRequest method path requestData).path = path) ∧
    (makeRequest method path requestData).body = requestData := by
  refine ⟨fun h => ?_, fun h => ?_, rfl⟩
  · rw [makeRequest]
    simp [h]
  · rw [makeRequest]
    simp [h]

/-- Witness for the amended C5 at a GET and a POST request. -/
theorem claim5_request_routing_witness :
    (makeRequest "GET" "/p" "a=1").path = "/p" ++ "?" ++ "a=1" ∧
    (makeRequest "POST" "/p" "a=1").path = "/p" ∧
    (makeRequest "GET" "/p" "a=1").body = "a=1" :=
  ⟨(claim5_request_routing "GET" "/p" "a=1").1 rfl,
   (claim5_request_routing "POST" "/p" "a=1").2.1 (by decide),
   (claim5_request_routing "GET" "/p" "a=1").2.2⟩

/-- C10 counterexample: `requestData` aliases the caller's `data`, and for
a GET request the signer assigns the auth fields onto it, so the caller's
data map is mutated once signing begins — it is no longer the map the
caller passed. -/
theorem claim10_counterexample :
    callerDataAfterSigning hmacStub "GET" "AKID" "SECRET" "mws.amazonservices.com"
        "/" "2016-01-01T00:00:00.000Z" [("Action", "ListOrders")]
      ≠ [("Action", "ListOrders")] := by
  rw [callerDataAfterSigning,
    signPhase_get_append hmacStub "AKID" "SECRET" "mws.amazonservices.com" "/"
      "2016-01-01T00:00:00.000Z" (by decide) (by decide) (by decide) (by decide)
      (by decide) (by decide)]
  simp

/-- C10 amended: the signer is in-place mutating for GET — after signing,
the caller's data object holds its original pairs followed by the injected
auth fields and `Signature` — and only for non-GET methods is the caller's
data object left unmodified. -/
theorem claim10_data_mutation (hmac : String → String → String)
    (method key secret host path now : String) {data : List (String × String)}
    (h₁ : "AWSAccessKeyId" ∉ keys data) (h₂ : "Timestamp" ∉ keys data)
    (h₃ : "SignatureVersion" ∉ keys data) (h₄ : "SignatureMethod" ∉ keys data)
    (h₅ : "Version" ∉ keys data) (h₆ : "Signature" ∉ keys data) :
    (method ≠ "GET" →
      callerDataAfterSigning hmac method key secret host path now data = data) ∧
    (method = "GET" →
      callerDataAfterSigning hmac method key secret host path now data
        = data ++ [("AWSAccessKeyId", key), ("Timestamp", now),
            ("SignatureVersion", "2"), ("SignatureMethod", "HmacSHA256"),
            ("Version", "2011-07-01"),
            ("Signature",
              hmac secret (stringToSign host path (injectAuth key now data)))]) := by
  constructor
  · intro h
    rw [callerDataAfterSigning, signPhase, if_neg h]
  · intro h
    subst h
    rw [callerDataAfterSigning]
    exact signPhase_get_append hmac key secret host path now h₁ h₂ h₃ h₄ h₅ h₆

/-- Witness for the amended C10 at a concrete map, both halves. -/
theorem claim10_data_mutation_witness :
    callerDataAfterSigning hmacStub "POST" "AKID" "SECRET" "mws.amazonservices.com"
        "/" "2016-01-01T00:00:00.000Z" [("Action", "ListOrders")]
      = [("Action", "ListOrders")] ∧
    callerDataAfterSigning hmacStub "GET" "AKID" "SECRET" "mws.amazonservices.com"
        "/" "2016-01-01T00:00:00.000Z" [("Action", "ListOrders")]
      = [("Action", "ListOrders")] ++ [("AWSAccessKeyId", "AKID"),
          ("Timestamp", "2016-01-01T00:00:00.000Z"), ("SignatureVersion", "2"),
          ("SignatureMethod", "HmacSHA256"), ("Version", "2011-07-01"),
          ("Signature", hmacStub "SECRET" (stringToSign "mws.amazonservices.com" "/"
            (injectAuth "AKID" "2016-01-01T00:00:00.000Z" [("Action", "ListOrders")])))] :=
  ⟨(claim10_data_mutation hmacStub "POST" "AKID" "SECRET" "mws.amazonservices.com"
      "/" "2016-01-01T00:00:00.000Z" (by decide) (by decide) (by decide) (by decide)
      (by decide) (by decide)).1 (by decide),
   (claim10_data_mutation hmacStub "GET" "AKID" "SECRET" "mws.amazonservices.com"
      "/" "2016-01-01T00:00:00.000Z" (by decide) (by decide) (by decide) (by decide)
      (by decide) (by decide)).2 rfl⟩

/-- C7 counterexample: a response body whose decode yields a structured
object that does contain an `ErrorResponse` field — with the falsy value
`""` — is NOT delivered as the error: the source tests
`if (response.ErrorResponse)` (truthiness, not field presence), skips the
error branch, and the success callback receives the whole body. -/
theorem claim7_counterexample :
    jsField (Js.obj [("ErrorResponse", Js.str "")]) "ErrorResponse"
      = some (Js.str "") ∧
    responseEnd toJsonStub jsonParseFalsyER "<ErrorResponse></ErrorResponse>"
      = DecodeOutcome.success (Js.obj [("ErrorResponse", Js.str "")]) ∧
    responseEnd toJsonStub jsonParseFalsyER "<ErrorResponse></ErrorResponse>"
      ≠ DecodeOutcome.upstreamError (Js.str "") := by
  refine ⟨rfl, rfl, fun h => ?_⟩
  rw [show responseEnd toJsonStub jsonParseFalsyER "<ErrorResponse></ErrorResponse>"
      = DecodeOutcome.success (Js.obj [("ErrorResponse", Js.str "")]) from rfl] at h
  exact DecodeOutcome.noConfusion h

/-- C7 amended: for every response body that decodes to a structured
object containing an `ErrorResponse` field with a truthy value (as the XML
conversion produces: a non-empty object or string), the decoder invokes
the callback with that parsed `ErrorResponse` value itself (unwrapped) as
the error argument and null as the result; it is neither thrown nor
wrapped as a transport error. -/
theorem claim7_upstream_error_passthrough (toJson : String → Except String String)
    (jsonParse : String → Except String Js) (raw s : String)
    (fields : List (String × Js)) (er : Js)
    (h₁ : toJson raw = .ok s) (h₂ : jsonParse s = .ok (.obj fields))
    (h₃ : fields.lookup "ErrorResponse" = some er) (h₄ : truthy er = true) :
    responseEnd toJson jsonParse raw = DecodeOutcome.upstreamError er := by
  unfold responseEnd
  rw [h₁]
  dsimp only
  rw [h₂]
  show (match jsField (Js.obj fields) "ErrorResponse" with
    | some e =>
        if truthy e then DecodeOutcome.upstreamError e
        else responseEnd.finishDecode (Js.obj fields)
    | none => responseEnd.finishDecode (Js.obj fields)) = DecodeOutcome.upstreamError er
  rw [show jsField (Js.obj fields) "ErrorResponse" = some er from h₃]
  simp [h₄]

/-- Witness for the amended C7: a truthy `ErrorResponse` body is passed
through unwrapped as the error. -/
theorem claim7_upstream_error_passthrough_witness :
    responseEnd toJsonStub jsonParseTruthyER "<ErrorResponse><Error>AccessDenied</Error></ErrorResponse>"
      = DecodeOutcome.upstreamError (Js.obj [("Error", Js.str "AccessDenied")]) :=
  claim7_upstream_error_passthrough toJsonStub jsonParseTruthyER
    "<ErrorResponse><Error>AccessDenied</Error></ErrorResponse>"
    "<ErrorResponse><Error>AccessDenied</Error></ErrorResponse>"
    [("ErrorResponse", Js.obj [("Error", Js.str "AccessDenied")])]
    (Js.obj [("Error", Js.str "AccessDenied")]) rfl rfl rfl rfl

/-- C8 counterexample: when `xml2json.toJson` succeeds but `JSON.parse`
throws, the `response` variable has already been reassigned to the
converted string, so the `AmazonMwsAPIError` carries the converted string,
not the raw response body. -/
theorem claim8_counterexample :
    responseEnd toJsonGarbage jsonParseThrow "<Bad"
      = DecodeOutcome.apiError (Js.str "not-json")
          "SyntaxError: Unexpected token o in JSON" ∧
    Js.str "not-json" ≠ Js.str "<Bad" := by
  refine ⟨rfl, fun h => ?_⟩
  injection h with h'
  exact absurd h' (by decide)

/-- C8 amended: for every response body whose conversion fails, the
decoder does not throw: it invokes the callback with an APIError carrying
the parse exception, null as the result, and the value of the `response`
variable at the point of failure — the raw body when the XML-to-JSON
conversion itself throws, and the converted string when `JSON.parse` of
the converted output throws. -/
theorem claim8_malformed_body (toJson : String → Except String String)
    (jsonParse : String → Except String Js) (raw e : String) :
    (toJson raw = .error e →
      responseEnd toJson jsonParse raw = DecodeOutcome.apiError (.str raw) e) ∧
    (∀ s, toJson raw = .ok s → jsonParse s = .error e →
      responseEnd toJson jsonParse raw = DecodeOutcome.apiError (.str s) e) := by
  constructor
  · intro h
    unfold responseEnd
    rw [h]
  · intro s h₁ h₂
    unfold responseEnd
    rw [h₁]
    dsimp only
    rw [h₂]

/-- Witness for the amended C8: both failure stages deliver an APIError
through the callback (stage one carries the raw body). -/
theorem claim8_malformed_body_witness :
    responseEnd toJsonThrow jsonParseThrow "<Truncated"
      = DecodeOutcome.apiError (Js.str "<Truncated")
          "Error: Unexpected end: <Truncated" ∧
    responseEnd toJsonGarbage jsonParseThrow "plain text"
      = DecodeOutcome.apiError (Js.str "not-json")
          "SyntaxError: Unexpected token o in JSON" :=
  ⟨(claim8_malformed_body toJsonThrow jsonParseThrow "<Truncated"
      "Error: Unexpected end: <Truncated").1 rfl,
   (claim8_malformed_body toJsonGarbage jsonParseThrow "plain text"
      "SyntaxError: Unexpected token o in JSON").2 "not-json" rfl rfl⟩

/-- C9: the claim says no input ever lets an exception escape, but the GET
branch of `_request` assigns `requestData.AWSAccessKeyId` without the
`data || {}` guard used at serialization (line 197), so a GET request with
`data = null` throws a TypeError synchronously, before any callback — the
code contradicts the propagation policy it implements everywhere else. -/
theorem claim9_null_data_get_throws :
    requestPrepare hmacStub "GET" "AKID" "SECRET" "mws.amazonservices.com" "/"
        "2016-01-01T00:00:00.000Z" none
      = .error (.typeError "Cannot set properties of null (setting AWSAccessKeyId)") :=
  rfl

end AmazonMws
